import Mathlib

/-!
Shallow embedding of the JWT / refresh-token subsystem of the
`full-stack-advanced-backend-poc` repository (package `internal/jwt`),
together with proofs about its documented behaviour.

The embedding models:
* the refresh-token store rows and the five SQL queries of
  `queries.sql` (`GetByID`, `GetUserByRefreshToken`, `Create`,
  `Inactivate`, `InactivateByUserID`) as pure state transformers over an
  in-memory database state;
* `Service.New`, `Service.Parse`, `Service.ValidateRefreshToken`,
  `Service.CreateRefreshToken`, `Service.InactivateRefreshTokenByUserID`
  from `service.go`, with `ValidateRefreshToken` written generically over
  the store interface exactly as the Go service is written over `Queries`;
* `Middleware.HandlerFunc` from `middleware.go` and
  `Handler.RefreshToken` from `handler.go`;
* an interleaving semantics for two concurrent redemption attempts, each
  decomposed into its individual store calls (every SQL statement is
  atomic at the store, the service performs several of them in sequence).
-/

namespace Backend

/-- Opaque unique identifier, standing for `uuid.UUID`. -/
structure Uuid where
  val : Nat
deriving DecidableEq, Repr

/-- Timestamps, standing for `time.Time` (one linear clock). -/
abbrev Time := Int

/-- A row of the `refresh_tokens` table:
`id UUID PRIMARY KEY, user_id UUID NOT NULL, is_available BOOLEAN DEFAULT TRUE,
expiration_date TIMESTAMPTZ NOT NULL`.  A SQL `NULL` availability reads back as
`false` through `pgtype.Bool.Bool`, so availability is modelled as `Bool`. -/
structure RefreshTokenRow where
  id : Uuid
  userID : Uuid
  isAvailable : Bool
  expirationDate : Time
deriving DecidableEq, Repr

/-- The identity the jwt package works with (`User` with `ID` and `Email`;
the remaining columns of the `users` table are irrelevant here). -/
structure User where
  ID : Uuid
  Email : String
deriving DecidableEq, Repr

/-- Errors a service call can return: the domain error
`ErrInvalidRefreshToken = errors.New("invalid token")`, the driver's
no-rows error returned by a `:one` query matching nothing
(`pgx.ErrNoRows`), and any other store failure. -/
inductive SvcErr where
  | invalidRefreshToken
  | noRows
  | storeFailure (msg : String)
deriving DecidableEq, Repr

/-- Parameters of the `Create` query (`INSERT INTO refresh_tokens
(user_id, expiration_date) VALUES ($1, $2) RETURNING *`). -/
structure CreateParams where
  userID : Uuid
  expirationDate : Time
deriving DecidableEq, Repr

/-- The store interface the service is written against: one field per
generated query of `queries.sql`, each a fallible state transformer on an
abstract store state `σ` (the Go `Queries` value over a `DBTX`). -/
structure Queries (σ : Type) where
  getByID : σ → Uuid → Except SvcErr RefreshTokenRow × σ
  getUserByRefreshToken : σ → Uuid → Except SvcErr User × σ
  create : σ → CreateParams → Except SvcErr RefreshTokenRow × σ
  inactivate : σ → Uuid → Except SvcErr RefreshTokenRow × σ
  inactivateByUserID : σ → Uuid → Except SvcErr Nat × σ

/-- Go function `Service.ValidateRefreshToken` (service.go): fetch the row by id,
reject if `ExpirationDate.Before(now)`, reject if `!IsAvailable`, look up
the owning user through the join query, then mark the row inactivated;
any store error is returned as-is, the expiry and availability checks
return `ErrInvalidRefreshToken`. -/
def Service.ValidateRefreshToken {σ : Type} (q : Queries σ) (now : Time) (s : σ) (id : Uuid) :
    Except SvcErr User × σ :=
  match q.getByID s id with
  | (.error e, s₁) => (.error e, s₁)
  | (.ok refreshToken, s₁) =>
    if refreshToken.expirationDate < now then
      (.error .invalidRefreshToken, s₁)
    else if !refreshToken.isAvailable then
      (.error .invalidRefreshToken, s₁)
    else
      match q.getUserByRefreshToken s₁ id with
      | (.error e, s₂) => (.error e, s₂)
      | (.ok jwtUser, s₂) =>
        match q.inactivate s₂ id with
        | (.error e, s₃) => (.error e, s₃)
        | (.ok _, s₃) => (.ok jwtUser, s₃)

/-- Go function `Service.CreateRefreshToken` (service.go): insert a fresh row expiring
at `now + refreshTokenExpiration`. -/
def Service.CreateRefreshToken {σ : Type} (q : Queries σ) (refreshTokenExpiration : Time)
    (now : Time) (s : σ) (userID : Uuid) : Except SvcErr RefreshTokenRow × σ :=
  q.create s { userID := userID, expirationDate := now + refreshTokenExpiration }

/-- Go function `Service.InactivateRefreshTokenByUserID` (service.go): bulk-inactivate
all rows of a user; the affected-rows count is discarded. -/
def Service.InactivateRefreshTokenByUserID {σ : Type} (q : Queries σ) (s : σ) (userID : Uuid) :
    Except SvcErr Unit × σ :=
  match q.inactivateByUserID s userID with
  | (.error e, s₁) => (.error e, s₁)
  | (.ok _, s₁) => (.ok (), s₁)

/-- In-memory database state: the two tables the jwt subsystem touches,
plus a counter from which the store derives fresh primary keys
(`DEFAULT gen_random_uuid()`). -/
structure DBState where
  refreshTokens : List RefreshTokenRow
  users : List User
  nextId : Nat
deriving DecidableEq, Repr

/-- Query `GetByID` (:one) — `SELECT * FROM refresh_tokens WHERE id = $1`. -/
def dbGetByID (s : DBState) (id : Uuid) : Except SvcErr RefreshTokenRow × DBState :=
  match s.refreshTokens.find? (fun r => decide (r.id = id)) with
  | some r => (.ok r, s)
  | none => (.error .noRows, s)

/-- Query `GetUserByRefreshToken` (:one) — `SELECT u.* FROM refresh_tokens r
JOIN users u ON r.user_id = u.id WHERE r.id = $1`. -/
def dbGetUserByRefreshToken (s : DBState) (id : Uuid) : Except SvcErr User × DBState :=
  match s.refreshTokens.find? (fun r => decide (r.id = id)) with
  | some r =>
    match s.users.find? (fun u => decide (u.ID = r.userID)) with
    | some u => (.ok u, s)
    | none => (.error .noRows, s)
  | none => (.error .noRows, s)

/-- Query `Create` (:one) — `INSERT INTO refresh_tokens (user_id,
expiration_date) VALUES ($1, $2) RETURNING *` (fresh id, availability
defaults to `TRUE`). -/
def dbCreate (s : DBState) (p : CreateParams) : Except SvcErr RefreshTokenRow × DBState :=
  let row : RefreshTokenRow :=
    { id := ⟨s.nextId⟩, userID := p.userID, isAvailable := true,
      expirationDate := p.expirationDate }
  (.ok row, { s with refreshTokens := s.refreshTokens ++ [row], nextId := s.nextId + 1 })

/-- Query `Inactivate` (:one) — `UPDATE refresh_tokens SET is_available =
FALSE WHERE id = $1 RETURNING *`: unconditional on availability; a `:one`
query matching no row yields the no-rows error. -/
def dbInactivate (s : DBState) (id : Uuid) : Except SvcErr RefreshTokenRow × DBState :=
  match s.refreshTokens.find? (fun r => decide (r.id = id)) with
  | some r =>
    (.ok { r with isAvailable := false },
     { s with refreshTokens :=
         s.refreshTokens.map (fun t => if t.id = id then { t with isAvailable := false } else t) })
  | none => (.error .noRows, s)

/-- Query `InactivateByUserID` (:execrows) — `UPDATE refresh_tokens SET
is_available = FALSE WHERE user_id = $1`: returns the affected-row count,
never a no-rows error. -/
def dbInactivateByUserID (s : DBState) (userID : Uuid) : Except SvcErr Nat × DBState :=
  let affected := (s.refreshTokens.filter (fun r => decide (r.userID = userID))).length
  let updated :=
    s.refreshTokens.map (fun t => if t.userID = userID then { t with isAvailable := false } else t)
  (.ok affected, { s with refreshTokens := updated })

/-- The in-memory instantiation of the store interface. -/
def memQueries : Queries DBState :=
  { getByID := dbGetByID
    getUserByRefreshToken := dbGetUserByRefreshToken
    create := dbCreate
    inactivate := dbInactivate
    inactivateByUserID := dbInactivateByUserID }

/-- The signing secret: `const secret = "default_secret"` in service.go. -/
def secret : String := "default_secret"

/-- The claim set embedded in an access token: the custom `UserID` and
`Email` fields plus the registered claims set by `Service.New`. -/
structure JwtClaims where
  userID : Uuid
  email : String
  issuer : String
  subject : String
  expiresAt : Time
  notBefore : Time
  issuedAt : Time
  jwtID : Uuid
deriving DecidableEq, Repr

/-- Modelled from the spec: the HMAC-SHA256 signature produced by the
external `golang-jwt/jwt/v5` library ("Signs with a symmetric secret using
a standard HMAC-SHA256-class algorithm").  Idealized as the pair of the
key and the signed payload, so that verification succeeds exactly when the
same key signed the same claims, and any tampering with the claims or use
of a different key is detected. -/
structure Mac where
  key : String
  signedClaims : JwtClaims
deriving DecidableEq, Repr

/-- Modelled from the spec: the wire shape of a token string handed to the
codec.  A string is empty, not a well-formed signed token ("Fails with
`Malformed` if the string is not a well-formed signed token"), or a signed
token optionally carrying the `"Bearer "` prefix that `Parse` strips. -/
inductive TokenString where
  | emptyStr
  | malformed (raw : String)
  | signed (hasBearer : Bool) (cl : JwtClaims) (sig : Mac)
deriving DecidableEq, Repr

/-- Models `strings.TrimPrefix(tokenString, "Bearer ")` on the wire shape. -/
def stripBearer : TokenString → TokenString
  | .signed _ cl sig => .signed false cl sig
  | t => t

/-- Decode-time errors of `Service.Parse`: the `golang-jwt` sentinel
errors the service distinguishes for logging, plus the service's own
`errors.New("invalid token claims")`. -/
inductive ParseErr where
  | tokenMalformed
  | signatureInvalid
  | tokenExpired
  | tokenNotValidYet
  | invalidClaims
deriving DecidableEq, Repr

/-- Go function `Service.New` (service.go): build the claim set with issuer
`"Backend-Training"`, subject `"Backend-Training Token"`, expiry
`now + expiration`, not-before and issued-at `now`, a fresh token id, and
sign it with the secret. -/
def Service.New (expiration : Time) (now : Time) (jwtID : Uuid) (userID : Uuid)
    (email : String) : TokenString :=
  let cl : JwtClaims :=
    { userID := userID
      email := email
      issuer := "Backend-Training"
      subject := "Backend-Training Token"
      expiresAt := now + expiration
      notBefore := now
      issuedAt := now
      jwtID := jwtID }
  .signed false cl ⟨secret, cl⟩

/-- Go function `Service.Parse` (service.go): strip the optional bearer token text,
then `jwt.ParseWithClaims` with the secret.  The library fails with
`ErrTokenMalformed` on a non-token string, `ErrSignatureInvalid` when the
signature does not verify, `ErrTokenExpired` when `now` is at or past the
expiry claim, and `ErrTokenNotValidYet` when `now` precedes not-before; on
success the service reads the custom claim fields into a `User`. -/
def Service.Parse (now : Time) (tokenString : TokenString) : Except ParseErr User :=
  match stripBearer tokenString with
  | .emptyStr => .error .tokenMalformed
  | .malformed _ => .error .tokenMalformed
  | .signed _ cl sig =>
    if sig = (⟨secret, cl⟩ : Mac) then
      if cl.expiresAt ≤ now then .error .tokenExpired
      else if now < cl.notBefore then .error .tokenNotValidYet
      else .ok { ID := cl.userID, Email := cl.email }
    else .error .signatureInvalid

/-- Constant `UserContextKey = "user"` (middleware.go). -/
def UserContextKey : String := "user"

/-- Request context as a stack of key/value attachments
(`context.WithValue` prepends, lookup finds the newest). -/
abbrev Ctx := List (String × Uuid)

/-- The response the jwt handler writes on the 200 path
(`Response{AccessToken, ExpirationTime, RefreshToken}`). -/
structure RefreshResponse where
  accessToken : TokenString
  expirationTime : Time
  refreshToken : Uuid
deriving DecidableEq, Repr

/-- A response body: the plain text written by `http.Error`, or the JSON
encoding of a `Response` value. -/
inductive Body where
  | text (msg : String)
  | json (resp : RefreshResponse)
deriving DecidableEq, Repr

/-- An HTTP response: status code and body. -/
structure HttpResponse where
  status : Nat
  body : Body
deriving DecidableEq, Repr

/-- Go function `Middleware.HandlerFunc` (middleware.go): read the authorization
header (`Header.Get` yields the empty string when absent); reject with
401/"Unauthorized" when it is empty; otherwise run the verifier's `Parse`
and reject with 401/"Unauthorized" on any error; on success invoke the
wrapped handler on a context extended with the user id under
`UserContextKey`. -/
def Middleware.HandlerFunc (verifierParse : TokenString → Except ParseErr User)
    (next : Ctx → HttpResponse) (ctx : Ctx) (authorizationHeader : TokenString) : HttpResponse :=
  if authorizationHeader = .emptyStr then
    { status := 401, body := .text "Unauthorized" }
  else
    match verifierParse authorizationHeader with
    | .error _ => { status := 401, body := .text "Unauthorized" }
    | .ok jwtUser => next ((UserContextKey, jwtUser.ID) :: ctx)

/-- The `jwtService` interface the handler depends on (handler.go):
`New`, `ValidateRefreshToken`, `CreateRefreshToken`, each a fallible state
transformer over the backing store state. -/
structure JwtSvc (σ : Type) where
  new : σ → Uuid → String → Except SvcErr TokenString × σ
  validateRefreshToken : σ → Uuid → Except SvcErr User × σ
  createRefreshToken : σ → Uuid → Except SvcErr RefreshTokenRow × σ

/-- Go function `Handler.RefreshToken` (handler.go): 400 when the `refreshToken` path
value is empty; 400 when `uuid.Parse` fails on it; then validate the
refresh token — `errors.Is(err, ErrInvalidRefreshToken)` maps to 400,
any other error to 500; then mint a new JWT and a new refresh token (500
on failure) and answer 200 with the JSON response. -/
def Handler.RefreshToken {σ : Type} (svc : JwtSvc σ) (uuidParse : String → Option Uuid)
    (s : σ) (pathRefreshToken : String) : HttpResponse × σ :=
  if pathRefreshToken = "" then
    ({ status := 400, body := .text "Refresh token is required" }, s)
  else
    match uuidParse pathRefreshToken with
    | none => ({ status := 400, body := .text "Invalid refresh token format" }, s)
    | some refreshTokenID =>
      match svc.validateRefreshToken s refreshTokenID with
      | (.error e, s₁) =>
        if e = .invalidRefreshToken then
          ({ status := 400, body := .text "Invalid refresh token" }, s₁)
        else
          ({ status := 500, body := .text "Failed to get user by refresh token" }, s₁)
      | (.ok jwtUser, s₁) =>
        match svc.new s₁ jwtUser.ID jwtUser.Email with
        | (.error _, s₂) => ({ status := 500, body := .text "Failed to generate new JWT" }, s₂)
        | (.ok jwtToken, s₂) =>
          match svc.createRefreshToken s₂ jwtUser.ID with
          | (.error _, s₃) =>
            ({ status := 500, body := .text "Failed to generate new refresh token" }, s₃)
          | (.ok newRefreshToken, s₃) =>
            ({ status := 200,
               body := .json { accessToken := jwtToken,
                               expirationTime := newRefreshToken.expirationDate,
                               refreshToken := newRefreshToken.id } }, s₃)

/-- The real `Service` packaged behind the handler's interface, over any
store (`jwtService` is implemented by `Service` in main.go); the clock and
the fresh jwt id are explicit parameters. -/
def serviceAsJwtSvc {σ : Type} (q : Queries σ) (expiration refreshTokenExpiration : Time)
    (now : Time) (jwtID : Uuid) : JwtSvc σ :=
  { new := fun s userID email => (.ok (Service.New expiration now jwtID userID email), s)
    validateRefreshToken := fun s id => Service.ValidateRefreshToken q now s id
    createRefreshToken := fun s userID =>
      Service.CreateRefreshToken q refreshTokenExpiration now s userID }

/-! ### Interleaving semantics for concurrent redemption

`Service.ValidateRefreshToken` issues three store calls in sequence
(`GetByID`, `GetUserByRefreshToken`, `Inactivate`); each call is a single
SQL statement, atomic at the store, but nothing serializes the sequence as
a whole.  A redemption attempt is therefore a small state machine whose
steps are exactly those store calls (the expiry and availability checks
are local computations on the fetched row, grouped with the fetch). -/

/-- Progress of one in-flight `ValidateRefreshToken` call. -/
inductive ThreadState where
  | atGet
  | atGetUser (refreshToken : RefreshTokenRow)
  | atInactivate (jwtUser : User)
  | finished (result : Except SvcErr User)
deriving Repr

/-- One store call of an in-flight redemption, against the shared
database. -/
def redeemStep (now : Time) (id : Uuid) (db : DBState) :
    ThreadState → ThreadState × DBState
  | .atGet =>
    match dbGetByID db id with
    | (.error e, db₁) => (.finished (.error e), db₁)
    | (.ok refreshToken, db₁) =>
      if refreshToken.expirationDate < now then
        (.finished (.error .invalidRefreshToken), db₁)
      else if !refreshToken.isAvailable then
        (.finished (.error .invalidRefreshToken), db₁)
      else (.atGetUser refreshToken, db₁)
  | .atGetUser _ =>
    match dbGetUserByRefreshToken db id with
    | (.error e, db₁) => (.finished (.error e), db₁)
    | (.ok jwtUser, db₁) => (.atInactivate jwtUser, db₁)
  | .atInactivate jwtUser =>
    match dbInactivate db id with
    | (.error e, db₁) => (.finished (.error e), db₁)
    | (.ok _, db₁) => (.finished (.ok jwtUser), db₁)
  | .finished r => (.finished r, db)

/-- Run two concurrent redemption attempts on the same id under an
explicit schedule: `true` steps the first thread, `false` the second. -/
def runSchedule (now : Time) (id : Uuid) :
    List Bool → ThreadState × ThreadState × DBState → ThreadState × ThreadState × DBState
  | [], st => st
  | true :: rest, (t₁, t₂, db) =>
    let (t₁', db') := redeemStep now id db t₁
    runSchedule now id rest (t₁', t₂, db')
  | false :: rest, (t₁, t₂, db) =>
    let (t₂', db') := redeemStep now id db t₂
    runSchedule now id rest (t₁, t₂', db')

/-! ### Concrete fixtures -/

/-- A concrete user. -/
def user₀ : User := { ID := ⟨1⟩, Email := "u@example.com" }

/-- A second concrete user. -/
def user₁ : User := { ID := ⟨2⟩, Email := "v@example.com" }

/-- A fresh refresh token owned by `user₀`, available, expiring at 1000. -/
def row₀ : RefreshTokenRow :=
  { id := ⟨7⟩, userID := ⟨1⟩, isAvailable := true, expirationDate := 1000 }

/-- A fresh refresh token owned by `user₁`, available, expiring at 2000. -/
def row₁ : RefreshTokenRow :=
  { id := ⟨8⟩, userID := ⟨2⟩, isAvailable := true, expirationDate := 2000 }

/-- A store holding `row₀` and its owner. -/
def db₀ : DBState := { refreshTokens := [row₀], users := [user₀], nextId := 100 }

/-- A store holding both tokens and both owners. -/
def db₁ : DBState := { refreshTokens := [row₀, row₁], users := [user₀, user₁], nextId := 100 }

/-- The empty store. -/
def dbEmpty : DBState := { refreshTokens := [], users := [], nextId := 0 }

/-- A store behaving like `db₀` on reads whose inactivation write fails
(e.g. the connection is lost mid-redemption). -/
def inactivateFailingQueries : Queries Unit :=
  { getByID := fun s _ => (.ok row₀, s)
    getUserByRefreshToken := fun s _ => (.ok user₀, s)
    create := fun s _ => (.ok row₀, s)
    inactivate := fun s _ => (.error (.storeFailure "write failed"), s)
    inactivateByUserID := fun s _ => (.ok 0, s) }

/-- A jwt service whose every method fails; used to observe that the
handler's early-validation paths never consult the service. -/
def trivialSvc : JwtSvc Unit :=
  { new := fun s _ _ => (.error (.storeFailure "unused"), s)
    validateRefreshToken := fun s _ => (.error (.storeFailure "unused"), s)
    createRefreshToken := fun s _ => (.error (.storeFailure "unused"), s) }

/-! ### Helper lemmas -/

/-- Searching by id commutes with mapping an id-preserving row update over
the table. -/
lemma find?_map_of_keeps_id (f : RefreshTokenRow → RefreshTokenRow)
    (hf : ∀ t, (f t).id = t.id) (l : List RefreshTokenRow) (id : Uuid) (r : RefreshTokenRow)
    (h : l.find? (fun t => decide (t.id = id)) = some r) :
    (l.map f).find? (fun t => decide (t.id = id)) = some (f r) := by
  induction l with
  | nil => simp at h
  | cons a l ih =>
    by_cases ha : a.id = id
    · rw [List.find?_cons_of_pos _ (by simpa using ha)] at h
      injection h with h
      subst h
      rw [List.map_cons, List.find?_cons_of_pos _ (by simpa [hf] using ha)]
    · rw [List.find?_cons_of_neg _ (by simpa using ha)] at h
      rw [List.map_cons, List.find?_cons_of_neg _ (by simpa [hf] using ha)]
      exact ih h

/-! ### Claims -/

/-- Claim C1: single-use redemption.  For every stored refresh token that
is available and not expired and whose owner exists, the first
`ValidateRefreshToken` call with its id succeeds and returns the owning
user's identity, the successful call flips the row's availability to
false, and every subsequent call with the same id fails with
`InvalidRefreshToken`. -/
theorem validateRefreshToken_single_use (st : DBState) (id : Uuid) (r : RefreshTokenRow)
    (u : User) (now : Time)
    (hfind : st.refreshTokens.find? (fun t => decide (t.id = id)) = some r)
    (hexp : ¬ r.expirationDate < now)
    (havail : r.isAvailable = true)
    (huser : st.users.find? (fun v => decide (v.ID = r.userID)) = some u) :
    ∃ st' : DBState,
      Service.ValidateRefreshToken memQueries now st id = (.ok u, st') ∧
      st'.refreshTokens.find? (fun t => decide (t.id = id)) =
        some { r with isAvailable := false } ∧
      ∀ now' : Time,
        Service.ValidateRefreshToken memQueries now' st' id =
          (.error .invalidRefreshToken, st') := by
  have hrid : r.id = id := by simpa using List.find?_some hfind
  have hmap : (st.refreshTokens.map
      (fun t => if t.id = id then { t with isAvailable := false } else t)).find?
        (fun t => decide (t.id = id)) = some { r with isAvailable := false } := by
    have hkeep := find?_map_of_keeps_id
        (fun t => if t.id = id then { t with isAvailable := false } else t)
        (fun t => by by_cases h : t.id = id <;> simp [h]) st.refreshTokens id r hfind
    simpa [hrid] using hkeep
  refine ⟨⟨st.refreshTokens.map
      (fun t => if t.id = id then { t with isAvailable := false } else t),
      st.users, st.nextId⟩,
    ?_, by simpa using hmap, ?_⟩
  · simp [Service.ValidateRefreshToken, memQueries, dbGetByID, dbGetUserByRefreshToken,
      dbInactivate, hfind, huser, hexp, havail]
  · intro now'
    by_cases h : r.expirationDate < now' <;>
      simp [Service.ValidateRefreshToken, memQueries, dbGetByID, hmap, h]

/-- Witness for C1 at a concrete store: the fresh token `row₀` of `db₀`
redeems once for `user₀` and then always fails. -/
theorem validateRefreshToken_single_use_witness :
    ∃ st' : DBState,
      Service.ValidateRefreshToken memQueries 10 db₀ ⟨7⟩ = (.ok user₀, st') ∧
      st'.refreshTokens.find? (fun t => decide (t.id = (⟨7⟩ : Uuid))) =
        some { row₀ with isAvailable := false } ∧
      ∀ now' : Time,
        Service.ValidateRefreshToken memQueries now' st' ⟨7⟩ =
          (.error .invalidRefreshToken, st') :=
  validateRefreshToken_single_use db₀ ⟨7⟩ row₀ user₀ 10 rfl (by decide) rfl rfl

/-- Claim C3 (counterexample): the claim says a token whose expiration is
less than or equal to `now` is rejected; on the code, a token whose
expiration equals `now` exactly passes the expiry check and redeems
successfully (the check is `ExpirationDate.Before(now)`, a strict
comparison). -/
theorem redeem_at_exact_expiry_counterexample :
    row₀.expirationDate ≤ 1000 ∧
    (Service.ValidateRefreshToken memQueries 1000 db₀ ⟨7⟩).1 = .ok user₀ :=
  ⟨by decide, rfl⟩

/-- Claim C3 (amended): the expiry boundary of redemption is exclusive --
for every stored refresh token whose expiration timestamp is strictly
less than the current time, `ValidateRefreshToken` fails with
`InvalidRefreshToken`; a token whose expiration equals `now` exactly is
not rejected by the expiry check. -/
theorem redeem_expired_strict (st : DBState) (id : Uuid) (r : RefreshTokenRow) (now : Time)
    (hfind : st.refreshTokens.find? (fun t => decide (t.id = id)) = some r)
    (hexp : r.expirationDate < now) :
    Service.ValidateRefreshToken memQueries now st id =
      (.error .invalidRefreshToken, st) := by
  simp [Service.ValidateRefreshToken, memQueries, dbGetByID, hfind, hexp]

/-- Witness for the amended C3: at one tick past its expiration, `row₀`
fails redemption with `InvalidRefreshToken`. -/
theorem redeem_expired_strict_witness :
    Service.ValidateRefreshToken memQueries 1001 db₀ ⟨7⟩ =
      (.error .invalidRefreshToken, db₀) :=
  redeem_expired_strict db₀ ⟨7⟩ row₀ 1001 rfl (by decide)

/-- Claim C9: redemption leaves the store unchanged on any failure before
the inactivation step — if the row is absent, expired, or unavailable, or
the owner lookup finds no user, `ValidateRefreshToken` returns an error
and the store state is exactly the input state (in particular the row is
not inactivated). -/
theorem validateRefreshToken_no_consume_on_failure (st : DBState) (id : Uuid) (now : Time)
    (hfail : st.refreshTokens.find? (fun t => decide (t.id = id)) = none ∨
      ∃ r, st.refreshTokens.find? (fun t => decide (t.id = id)) = some r ∧
        (r.expirationDate < now ∨ r.isAvailable = false ∨
          st.users.find? (fun v => decide (v.ID = r.userID)) = none)) :
    ∃ e : SvcErr, Service.ValidateRefreshToken memQueries now st id = (.error e, st) := by
  rcases hfail with hnone | ⟨r, hfind, hr⟩
  · exact ⟨.noRows, by simp [Service.ValidateRefreshToken, memQueries, dbGetByID, hnone]⟩
  · rcases hr with hexp | hunav | huser
    · exact ⟨.invalidRefreshToken,
        by simp [Service.ValidateRefreshToken, memQueries, dbGetByID, hfind, hexp]⟩
    · by_cases hexp : r.expirationDate < now
      · exact ⟨.invalidRefreshToken,
          by simp [Service.ValidateRefreshToken, memQueries, dbGetByID, hfind, hexp]⟩
      · exact ⟨.invalidRefreshToken,
          by simp [Service.ValidateRefreshToken, memQueries, dbGetByID, hfind, hexp, hunav]⟩
    · by_cases hexp : r.expirationDate < now
      · exact ⟨.invalidRefreshToken,
          by simp [Service.ValidateRefreshToken, memQueries, dbGetByID, hfind, hexp]⟩
      · by_cases hunav : r.isAvailable
        · exact ⟨.noRows, by simp [Service.ValidateRefreshToken, memQueries, dbGetByID,
            dbGetUserByRefreshToken, hfind, hexp, hunav, huser]⟩
        · exact ⟨.invalidRefreshToken,
            by simp [Service.ValidateRefreshToken, memQueries, dbGetByID, hfind, hexp, hunav]⟩

/-- Witness for C9: redeeming an id absent from the empty store fails and
leaves the store as it was. -/
theorem validateRefreshToken_no_consume_on_failure_witness :
    ∃ e : SvcErr,
      Service.ValidateRefreshToken memQueries 0 dbEmpty ⟨7⟩ = (.error e, dbEmpty) :=
  validateRefreshToken_no_consume_on_failure dbEmpty ⟨7⟩ 0 (Or.inl rfl)

/-- Claim C2 (counterexample): the claim says that for an id with no
stored row, `ValidateRefreshToken` returns an error the handler
classifies as `InvalidRefreshToken`, so the refresh endpoint answers 400;
on the code, the absent-row error is the driver's no-rows error, which is
not `ErrInvalidRefreshToken`, so the handler answers 500. -/
theorem absent_refresh_token_counterexample :
    (Service.ValidateRefreshToken memQueries 0 dbEmpty ⟨7⟩).1 = .error .noRows ∧
    SvcErr.noRows ≠ SvcErr.invalidRefreshToken ∧
    (Handler.RefreshToken (serviceAsJwtSvc memQueries 900 1800 0 ⟨9⟩)
        (fun _ => some ⟨7⟩) dbEmpty "7").1.status = 500 :=
  ⟨rfl, by decide, rfl⟩

/-- Claim C2 (amended): redeeming a refresh token id that has no stored
row fails with the driver's no-rows error, which the handler does not
classify as `InvalidRefreshToken`: the refresh endpoint answers 500,
not 400, and the store is left unchanged. -/
theorem absent_refresh_token_internal_error (st : DBState) (id : Uuid) (now : Time)
    (hnone : st.refreshTokens.find? (fun t => decide (t.id = id)) = none) :
    Service.ValidateRefreshToken memQueries now st id = (.error .noRows, st) ∧
    ∀ (expiration refreshTokenExpiration : Time) (jwtID : Uuid)
      (uuidParse : String → Option Uuid) (pathValue : String),
      pathValue ≠ "" → uuidParse pathValue = some id →
      Handler.RefreshToken
          (serviceAsJwtSvc memQueries expiration refreshTokenExpiration now jwtID)
          uuidParse st pathValue =
        ({ status := 500, body := .text "Failed to get user by refresh token" }, st) := by
  have hval : Service.ValidateRefreshToken memQueries now st id = (.error .noRows, st) := by
    simp [Service.ValidateRefreshToken, memQueries, dbGetByID, hnone]
  refine ⟨hval, ?_⟩
  intro expiration refreshTokenExpiration jwtID uuidParse pathValue hne hparse
  simp [Handler.RefreshToken, hne, hparse, serviceAsJwtSvc, hval]

/-- Witness for the amended C2: on the empty store the refresh endpoint,
given a well-formed unknown id, answers 500. -/
theorem absent_refresh_token_internal_error_witness :
    Service.ValidateRefreshToken memQueries 0 dbEmpty ⟨7⟩ = (.error .noRows, dbEmpty) ∧
    Handler.RefreshToken (serviceAsJwtSvc memQueries 900 1800 0 ⟨9⟩)
        (fun _ => some ⟨7⟩) dbEmpty "7" =
      ({ status := 500, body := .text "Failed to get user by refresh token" }, dbEmpty) := by
  obtain ⟨h₁, h₂⟩ := absent_refresh_token_internal_error dbEmpty ⟨7⟩ 0 rfl
  exact ⟨h₁, h₂ 900 1800 ⟨9⟩ (fun _ => some ⟨7⟩) "7" (by decide) rfl⟩

/-- Claim C4: round-trip of the token codec.  For every user id, email,
fresh token id and access-token lifetime at least zero, decoding the
token produced by `Service.New` with the same signing secret at any time
from minting up to (strictly before) `now + lifetime` succeeds and
returns exactly the same user id and email. -/
theorem token_codec_round_trip (userID jwtID : Uuid) (email : String)
    (expiration now t : Time) (_h₀ : 0 ≤ expiration) (h₁ : now ≤ t)
    (h₂ : t < now + expiration) :
    Service.Parse t (Service.New expiration now jwtID userID email) =
      .ok { ID := userID, Email := email } := by
  have hexp : ¬ (now + expiration ≤ t) := by
    intro hc
    exact absurd h₂ (not_lt.mpr hc)
  have hnbf : ¬ (t < now) := not_lt.mpr h₁
  simp [Service.Parse, Service.New, stripBearer, hexp, hnbf]

/-- Witness for C4 at concrete values: a token minted at time 0 with
lifetime 900 decodes at time 5 to the same identity. -/
theorem token_codec_round_trip_witness :
    Service.Parse 5 (Service.New 900 0 ⟨9⟩ ⟨1⟩ "u@example.com") =
      .ok { ID := ⟨1⟩, Email := "u@example.com" } :=
  token_codec_round_trip ⟨1⟩ ⟨9⟩ "u@example.com" 900 0 5 (by decide) (by decide) (by decide)

/-- Claim C5: redemption never returns a live identity without consuming
the token.  Over any store, if the row passes the existence, expiry and
availability checks and the owner lookup succeeds, but the inactivation
write fails, then the whole `ValidateRefreshToken` call fails with that
error and returns no identity. -/
theorem redemption_fails_if_inactivation_fails {σ : Type} (q : Queries σ) (now : Time)
    (s : σ) (id : Uuid) (refreshToken : RefreshTokenRow) (jwtUser : User) (e : SvcErr)
    (s₁ s₂ s₃ : σ)
    (hget : q.getByID s id = (.ok refreshToken, s₁))
    (hexp : ¬ refreshToken.expirationDate < now)
    (havail : refreshToken.isAvailable = true)
    (huser : q.getUserByRefreshToken s₁ id = (.ok jwtUser, s₂))
    (hinact : q.inactivate s₂ id = (.error e, s₃)) :
    Service.ValidateRefreshToken q now s id = (.error e, s₃) := by
  simp [Service.ValidateRefreshToken, hget, hexp, havail, huser, hinact]

/-- Witness for C5: against a store whose inactivation write fails, a
redemption that passed every check still fails with the store error. -/
theorem redemption_fails_if_inactivation_fails_witness :
    Service.ValidateRefreshToken inactivateFailingQueries 10 () ⟨7⟩ =
      (.error (.storeFailure "write failed"), ()) :=
  redemption_fails_if_inactivation_fails inactivateFailingQueries 10 () ⟨7⟩
    row₀ user₀ (.storeFailure "write failed") () () ()
    rfl (by decide) rfl rfl rfl

/-- Claim C6: authentication gate.  For every request context and wrapped
handler: an absent authorization header yields 401 "Unauthorized" without
invoking the wrapped handler; any header on which `Service.Parse` fails
(malformed, tampered signature, expired, not yet valid) yields 401
"Unauthorized" without invoking the wrapped handler; and a header that
decodes successfully yields the wrapped handler's response on a context
carrying the decoded user id under `UserContextKey`. -/
theorem authentication_gate (now : Time) (next : Ctx → HttpResponse) (ctx : Ctx)
    (hdr : TokenString) :
    (hdr = .emptyStr →
      Middleware.HandlerFunc (Service.Parse now) next ctx hdr =
        { status := 401, body := .text "Unauthorized" }) ∧
    (∀ e : ParseErr, Service.Parse now hdr = .error e →
      Middleware.HandlerFunc (Service.Parse now) next ctx hdr =
        { status := 401, body := .text "Unauthorized" }) ∧
    (∀ u : User, hdr ≠ .emptyStr → Service.Parse now hdr = .ok u →
      Middleware.HandlerFunc (Service.Parse now) next ctx hdr =
        next ((UserContextKey, u.ID) :: ctx)) := by
  refine ⟨fun h => by simp [Middleware.HandlerFunc, h], fun e he => ?_, fun u hne hok => ?_⟩
  · by_cases h : hdr = .emptyStr
    · simp [Middleware.HandlerFunc, h]
    · simp [Middleware.HandlerFunc, h, he]
  · simp [Middleware.HandlerFunc, hne, hok]

/-- Witness for C6: a missing header and a malformed token are both
rejected with 401, and a freshly minted valid token reaches the wrapped
handler with the user id attached to the context. -/
theorem authentication_gate_witness :
    Middleware.HandlerFunc (Service.Parse 5)
        (fun _ => { status := 200, body := .text "ok" }) [] .emptyStr =
      { status := 401, body := .text "Unauthorized" } ∧
    Middleware.HandlerFunc (Service.Parse 5)
        (fun _ => { status := 200, body := .text "ok" }) [] (.malformed "zzz") =
      { status := 401, body := .text "Unauthorized" } ∧
    Middleware.HandlerFunc (Service.Parse 5)
        (fun _ => { status := 200, body := .text "ok" }) []
        (Service.New 900 0 ⟨9⟩ ⟨1⟩ "u@example.com") =
      { status := 200, body := .text "ok" } :=
  ⟨(authentication_gate 5 (fun _ => { status := 200, body := .text "ok" }) []
      .emptyStr).1 rfl,
   (authentication_gate 5 (fun _ => { status := 200, body := .text "ok" }) []
      (.malformed "zzz")).2.1 .tokenMalformed rfl,
   (authentication_gate 5 (fun _ => { status := 200, body := .text "ok" }) []
      (Service.New 900 0 ⟨9⟩ ⟨1⟩ "u@example.com")).2.2
      { ID := ⟨1⟩, Email := "u@example.com" } (by decide) rfl⟩

/-- Claim C7: bulk invalidation with frame condition.  For every user `u`,
`InactivateRefreshTokenByUserID` succeeds; afterwards every refresh token
previously stored for `u` fails redemption with `InvalidRefreshToken`
(and redemption attempts leave the state fixed), while the rows of every
other user are carried over unchanged (same id, availability and
expiration), in both directions. -/
theorem bulk_invalidation_frame (st : DBState) (u : Uuid) :
    (Service.InactivateRefreshTokenByUserID memQueries st u).1 = .ok () ∧
    (∀ (id : Uuid) (r : RefreshTokenRow) (now : Time),
      st.refreshTokens.find? (fun t => decide (t.id = id)) = some r → r.userID = u →
      Service.ValidateRefreshToken memQueries now
          (Service.InactivateRefreshTokenByUserID memQueries st u).2 id =
        (.error .invalidRefreshToken,
         (Service.InactivateRefreshTokenByUserID memQueries st u).2)) ∧
    (∀ r : RefreshTokenRow, r ∈ st.refreshTokens → r.userID ≠ u →
      r ∈ (Service.InactivateRefreshTokenByUserID memQueries st u).2.refreshTokens) ∧
    (∀ r : RefreshTokenRow,
      r ∈ (Service.InactivateRefreshTokenByUserID memQueries st u).2.refreshTokens →
      r.userID ≠ u → r ∈ st.refreshTokens) := by
  have hrun : Service.InactivateRefreshTokenByUserID memQueries st u =
      (.ok (), ⟨st.refreshTokens.map
        (fun t => if t.userID = u then { t with isAvailable := false } else t),
        st.users, st.nextId⟩) := by
    simp [Service.InactivateRefreshTokenByUserID, memQueries, dbInactivateByUserID]
  refine ⟨by simp [hrun], ?_, ?_, ?_⟩
  · intro id r now hfind hu
    have hmap : ((st.refreshTokens.map
        (fun t => if t.userID = u then { t with isAvailable := false } else t)).find?
          (fun t => decide (t.id = id))) = some { r with isAvailable := false } := by
      have hkeep := find?_map_of_keeps_id
          (fun t => if t.userID = u then { t with isAvailable := false } else t)
          (fun t => by by_cases h : t.userID = u <;> simp [h]) st.refreshTokens id r hfind
      simpa [hu] using hkeep
    rw [hrun]
    by_cases h : r.expirationDate < now <;>
      simp [Service.ValidateRefreshToken, memQueries, dbGetByID, hmap, h]
  · intro r hr hne
    rw [hrun]
    refine List.mem_map.mpr ⟨r, hr, ?_⟩
    simp [hne]
  · intro r hr hne
    rw [hrun] at hr
    simp only [List.mem_map] at hr
    obtain ⟨a, ha, hga⟩ := hr
    by_cases hau : a.userID = u
    · exfalso
      apply hne
      rw [← hga]
      simp [hau]
    · have : (if a.userID = u then { a with isAvailable := false } else a) = a := by
        simp [hau]
      rw [this] at hga
      exact hga ▸ ha

/-- Witness for C7 at a concrete store: after invalidating user 1's
tokens in `db₁`, redeeming the token of user 1 fails with
`InvalidRefreshToken` while user 2's row `row₁` is still present
unchanged. -/
theorem bulk_invalidation_frame_witness :
    (Service.InactivateRefreshTokenByUserID memQueries db₁ ⟨1⟩).1 = .ok () ∧
    Service.ValidateRefreshToken memQueries 10
        (Service.InactivateRefreshTokenByUserID memQueries db₁ ⟨1⟩).2 ⟨7⟩ =
      (.error .invalidRefreshToken,
       (Service.InactivateRefreshTokenByUserID memQueries db₁ ⟨1⟩).2) ∧
    row₁ ∈ (Service.InactivateRefreshTokenByUserID memQueries db₁ ⟨1⟩).2.refreshTokens := by
  obtain ⟨h₁, h₂, h₃, _⟩ := bulk_invalidation_frame db₁ ⟨1⟩
  exact ⟨h₁, h₂ ⟨7⟩ row₀ 10 rfl rfl, h₃ row₁ (by decide) (by decide)⟩

/-- Claim C10: the refresh endpoint validates the token id's format
before touching any state.  For every service implementation, a request
whose `refreshToken` path value is empty, or on which `uuid.Parse` fails,
is answered 400 with the corresponding message and the state is returned
untouched; the response is the same whatever the service does, so no
service or store call influences it. -/
theorem refresh_handler_validates_format_first {σ : Type} (svc : JwtSvc σ)
    (uuidParse : String → Option Uuid) (s : σ) (pathValue : String) :
    (pathValue = "" →
      Handler.RefreshToken svc uuidParse s pathValue =
        ({ status := 400, body := .text "Refresh token is required" }, s)) ∧
    (pathValue ≠ "" → uuidParse pathValue = none →
      Handler.RefreshToken svc uuidParse s pathValue =
        ({ status := 400, body := .text "Invalid refresh token format" }, s)) := by
  constructor
  · intro h
    simp [Handler.RefreshToken, h]
  · intro h hp
    simp [Handler.RefreshToken, h, hp]

/-- Witness for C10: the always-failing service is never consulted — an
empty and an unparsable path value both come back 400 with the state
untouched. -/
theorem refresh_handler_validates_format_first_witness :
    Handler.RefreshToken trivialSvc (fun _ => none) () "" =
      ({ status := 400, body := .text "Refresh token is required" }, ()) ∧
    Handler.RefreshToken trivialSvc (fun _ => none) () "not-a-uuid" =
      ({ status := 400, body := .text "Invalid refresh token format" }, ()) :=
  ⟨(refresh_handler_validates_format_first trivialSvc (fun _ => none) () "").1 rfl,
   (refresh_handler_validates_format_first trivialSvc (fun _ => none) () "not-a-uuid").2
     (by decide) rfl⟩

/-- Sequential consistency of the step decomposition: running one
redemption attempt alone, store call by store call, computes exactly
`Service.ValidateRefreshToken` over the in-memory store. -/
theorem redeemStep_sequential (now : Time) (id : Uuid) (db : DBState) :
    runSchedule now id [true, true, true]
        (.atGet, .finished (.error .noRows), db) =
      (.finished (Service.ValidateRefreshToken memQueries now db id).1,
       .finished (.error .noRows),
       (Service.ValidateRefreshToken memQueries now db id).2) := by
  rcases hget : dbGetByID db id with ⟨res, db₁⟩
  cases res with
  | error e =>
    simp [runSchedule, redeemStep, Service.ValidateRefreshToken, memQueries, hget]
  | ok rt =>
    by_cases hexp : rt.expirationDate < now
    · simp [runSchedule, redeemStep, Service.ValidateRefreshToken, memQueries, hget, hexp]
    · by_cases hav : rt.isAvailable
      · rcases huser : dbGetUserByRefreshToken db₁ id with ⟨res₂, db₂⟩
        cases res₂ with
        | error e =>
          simp [runSchedule, redeemStep, Service.ValidateRefreshToken, memQueries,
            hget, hexp, hav, huser]
        | ok jwtUser =>
          rcases hinact : dbInactivate db₂ id with ⟨res₃, db₃⟩
          cases res₃ with
          | error e =>
            simp [runSchedule, redeemStep, Service.ValidateRefreshToken, memQueries,
              hget, hexp, hav, huser, hinact]
          | ok rt₂ =>
            simp [runSchedule, redeemStep, Service.ValidateRefreshToken, memQueries,
              hget, hexp, hav, huser, hinact]
      · simp [runSchedule, redeemStep, Service.ValidateRefreshToken, memQueries,
          hget, hexp, hav]

/-- Claim C8: the claim demands that two concurrent redemptions of the
same id yield exactly one success, which would require the availability
check and the inactivation to be one atomic conditional update.  The code
issues an unconditional `UPDATE ... WHERE id = $1` after a separate read,
so under the interleaving in which both attempts execute `GetByID` before
either executes `Inactivate`, both attempts succeed — the code violates
the claimed invariant. -/
theorem concurrent_redemption_double_success :
    (runSchedule 10 ⟨7⟩ [true, false, true, false, true, false]
        (.atGet, .atGet, db₀)).1 = .finished (.ok user₀) ∧
    (runSchedule 10 ⟨7⟩ [true, false, true, false, true, false]
        (.atGet, .atGet, db₀)).2.1 = .finished (.ok user₀) :=
  ⟨rfl, rfl⟩

end Backend
